import Mathlib

/-!
Verification of the event-normalization pipeline of the calendar_bot
repository (src/mcp_calendar.py and src/app.py).

The Python dictionaries that carry event records are embedded as
association lists from field names to loosely typed values (`Value`),
mirroring the dynamic typing of the source.  Python exceptions are
embedded with the `Except Exn` monad; a `try/except` block becomes an
explicit handler on that monad.  Python `datetime` objects are embedded
as a record of calendar fields, with `datetime.fromisoformat`,
`isoformat`, and `+ timedelta(hours=1)` modelled below.
-/

/-- A loosely typed Python value, as found in an event dictionary:
a string, an integer, or `None`. -/
inductive Value where
  | vStr : String → Value
  | vInt : Int → Value
  | vNone : Value
deriving DecidableEq, Repr

/-- Python truthiness of a `Value`: empty string, zero and `None` are falsy. -/
def truthy : Value → Bool
  | .vStr s => !s.isEmpty
  | .vInt n => n != 0
  | .vNone => false

/-- Truthiness of `dict.get(k)`-style results: a missing key is falsy. -/
def truthyOpt : Option Value → Bool
  | none => false
  | some v => truthy v

/-- Python `str(v)`, as used by f-string interpolation. -/
def pyStrOf : Value → String
  | .vStr s => s
  | .vInt n => toString n
  | .vNone => "None"

/-- An event record: a Python dict from field names to values. -/
abbrev Event := List (String × Value)

/-- Python `event.get(k, dflt)`. -/
def dictGet (event : Event) (k : String) (dflt : Value) : Value :=
  ((List.lookup k event).getD dflt)

/-- Every value stored in the record is a string, as in the spec's
EventRecord data model (all fields are typed `string | absent`). -/
def wellTypedB (event : Event) : Bool :=
  event.all (fun p => match p.2 with | .vStr _ => true | _ => false)

/-- The Python exceptions that can arise in the embedded code. -/
inductive Exn where
  | valueError : Exn
  | typeError : Exn
  | overflowError : Exn
deriving DecidableEq, Repr

/-! ## Python datetime model -/

/-- A Python `datetime.datetime` value (naive, microseconds unused here). -/
structure PyDateTime where
  year : Nat
  month : Nat
  day : Nat
  hour : Nat
  minute : Nat
  second : Nat
deriving DecidableEq, Repr

/-- Gregorian leap-year test, as in Python's `calendar.isleap`. -/
def isLeapYear (y : Nat) : Bool :=
  (y % 4 == 0 && y % 100 != 0) || y % 400 == 0

/-- Days in a month, as in Python's `calendar.monthrange`. -/
def daysInMonth (y m : Nat) : Nat :=
  match m with
  | 2 => if isLeapYear y then 29 else 28
  | 4 | 6 | 9 | 11 => 30
  | _ => 31

/-- Days in the year before the first of a given month
(Python's `datetime._days_before_month`). -/
def daysBeforeMonth (y m : Nat) : Nat :=
  (match m with
   | 1 => 0 | 2 => 31 | 3 => 59 | 4 => 90 | 5 => 120 | 6 => 151
   | 7 => 181 | 8 => 212 | 9 => 243 | 10 => 273 | 11 => 304 | _ => 334)
  + (if 2 < m then (if isLeapYear y then 1 else 0) else 0)

/-- Days before January 1 of a given year
(Python's `datetime._days_before_year`). -/
def daysBeforeYear (year : Nat) : Nat :=
  (year - 1) * 365 + (year - 1) / 4 - (year - 1) / 100 + (year - 1) / 400

/-- Proleptic Gregorian ordinal of a date (Python's `datetime.toordinal`:
day 1 is 0001-01-01). -/
def toOrdinal (y m d : Nat) : Nat :=
  daysBeforeYear y + daysBeforeMonth y m + d

/-- A datetime as a count of seconds on the proleptic Gregorian time line;
this is the "instant" a naive UTC datetime denotes. -/
def toSeconds (dt : PyDateTime) : Nat :=
  toOrdinal dt.year dt.month dt.day * 86400
    + dt.hour * 3600 + dt.minute * 60 + dt.second

/-- The field-validity invariant Python `datetime` maintains. -/
def validDT (dt : PyDateTime) : Prop :=
  1 ≤ dt.year ∧ 1 ≤ dt.month ∧ dt.month ≤ 12 ∧
  1 ≤ dt.day ∧ dt.day ≤ daysInMonth dt.year dt.month ∧
  dt.hour ≤ 23 ∧ dt.minute ≤ 59 ∧ dt.second ≤ 59

/-- Python `dt + timedelta(hours=1)`: the source adds the timedelta by
ordinal arithmetic, which on an in-range datetime is the calendar
successor hour; past 9999-12-31 23:xx it raises `OverflowError` (`none`). -/
def addOneHour (dt : PyDateTime) : Option PyDateTime :=
  if dt.hour < 23 then some { dt with hour := dt.hour + 1 }
  else if dt.day < daysInMonth dt.year dt.month then
    some { dt with hour := 0, day := dt.day + 1 }
  else if dt.month < 12 then
    some { dt with hour := 0, day := 1, month := dt.month + 1 }
  else if dt.year < 9999 then
    some { dt with hour := 0, day := 1, month := 1, year := dt.year + 1 }
  else none

/-! ## Parsing (`datetime.fromisoformat`) and printing (`isoformat`) -/

/-- The numeric value of an ASCII digit, `none` on any other character. -/
def digitVal (c : Char) : Option Nat :=
  if 48 ≤ c.toNat ∧ c.toNat ≤ 57 then some (c.toNat - 48) else none

/-- Two ASCII digits as a number. -/
def parse2 (a b : Char) : Option Nat :=
  match digitVal a, digitVal b with
  | some x, some y => some (x * 10 + y)
  | _, _ => none

/-- Four ASCII digits as a number. -/
def parse4 (a b c d : Char) : Option Nat :=
  match digitVal a, digitVal b, digitVal c, digitVal d with
  | some x, some y, some z, some w => some (x * 1000 + y * 100 + z * 10 + w)
  | _, _, _, _ => none

/-- The date portion accepted by `datetime.fromisoformat`:
exactly `YYYY-MM-DD` with in-range year, month and day. -/
def parseDateList : List Char → Option (Nat × Nat × Nat)
  | [a, b, c, d, s1, e, f, s2, g, h] =>
    if s1 = '-' ∧ s2 = '-' then
      match parse4 a b c d, parse2 e f, parse2 g h with
      | some y, some mo, some da =>
        if 1 ≤ y ∧ 1 ≤ mo ∧ mo ≤ 12 ∧ 1 ≤ da ∧ da ≤ daysInMonth y mo then
          some (y, mo, da)
        else none
      | _, _, _ => none
    else none
  | _ => none

/-- The time portion accepted by `datetime.fromisoformat`:
`HH`, `HH:MM` or `HH:MM:SS` with in-range fields (fractional seconds
and offsets, which no code path here produces, are not modelled). -/
def parseTimeList : List Char → Option (Nat × Nat × Nat)
  | [a, b] =>
    match parse2 a b with
    | some hh => if hh ≤ 23 then some (hh, 0, 0) else none
    | none => none
  | [a, b, c, d, e] =>
    if c = ':' then
      match parse2 a b, parse2 d e with
      | some hh, some mi =>
        if hh ≤ 23 ∧ mi ≤ 59 then some (hh, mi, 0) else none
      | _, _ => none
    else none
  | [a, b, c, d, e, f, g, h] =>
    if c = ':' ∧ f = ':' then
      match parse2 a b, parse2 d e, parse2 g h with
      | some hh, some mi, some ss =>
        if hh ≤ 23 ∧ mi ≤ 59 ∧ ss ≤ 59 then some (hh, mi, ss) else none
      | _, _, _ => none
    else none
  | _ => none

/-- Python `datetime.fromisoformat`: a bare `YYYY-MM-DD` date, or a date,
one separator character, and a time.  Returns `none` where Python raises
`ValueError`. -/
def pyFromisoformat (s : String) : Option PyDateTime :=
  match parseDateList s.data with
  | some (y, m, d) => some ⟨y, m, d, 0, 0, 0⟩
  | none =>
    match parseDateList (s.data.take 10), parseTimeList (s.data.drop 11) with
    | some (y, m, d), some (hh, mi, ss) => some ⟨y, m, d, hh, mi, ss⟩
    | _, _ => none

/-- Zero-padded two-digit decimal. -/
def pad2 (n : Nat) : String :=
  if n < 10 then "0" ++ toString n else toString n

/-- Zero-padded four-digit decimal. -/
def pad4 (n : Nat) : String :=
  if n < 10 then "000" ++ toString n
  else if n < 100 then "00" ++ toString n
  else if n < 1000 then "0" ++ toString n
  else toString n

/-- Python `datetime.isoformat()` for a whole-second datetime. -/
def isoformat (dt : PyDateTime) : String :=
  pad4 dt.year ++ "-" ++ pad2 dt.month ++ "-" ++ pad2 dt.day ++ "T"
    ++ pad2 dt.hour ++ ":" ++ pad2 dt.minute ++ ":" ++ pad2 dt.second

/-! ## The pipeline (src/mcp_calendar.py, src/app.py) -/

/-- `MCPCalendarManager.validate_event_data`: requires truthy `title` and
`start_date`, then calls `datetime.fromisoformat(event['start_date'])`
catching only `ValueError` (an unparseable string yields `False`); on a
truthy non-string `start_date`, `fromisoformat` raises `TypeError`,
which this function does not catch. -/
def validate_event_data (event : Event) : Except Exn Bool :=
  if ¬ truthyOpt (List.lookup "title" event) then .ok false
  else if ¬ truthyOpt (List.lookup "start_date" event) then .ok false
  else
    match List.lookup "start_date" event with
    | some (.vStr s) => .ok (pyFromisoformat s).isSome
    | some _ => .error .typeError
    | none => .ok false

/-- A value of the Google-Calendar `start`/`end` field: either a
date-only `\x7b'date': ...\x7d` or a timed `\x7b'dateTime': ..., 'timeZone': ...\x7d`. -/
inductive GTime where
  | date : Value → GTime
  | dateTime : String → String → GTime
deriving DecidableEq, Repr

/-- The formatted Google-Calendar event dictionary built by
`format_event_for_gcal`. -/
structure GCalEvent where
  summary : Value
  description : Value
  start : GTime
  end_ : GTime
  location : Option Value
deriving DecidableEq, Repr

/-- The `start` field of `format_event_for_gcal`: a timed
`f"\x7bstart_date\x7dT\x7bstart_time\x7d:00"` when `start_time` is truthy, else the
raw `start_date` value as a date. -/
def computeStart (event : Event) : GTime :=
  let start_date := dictGet event "start_date" .vNone
  let start_time := dictGet event "start_time" .vNone
  if truthy start_time then
    .dateTime (pyStrOf start_date ++ "T" ++ pyStrOf start_time ++ ":00") "UTC"
  else .date start_date

/-- The `end` field of `format_event_for_gcal`: a concatenated timed value
when `end_time` is truthy; else, when `start_time` is truthy, the parsed
start instant plus one hour (this is the only place a time string is
parsed, so only this branch can raise); else the raw end date. -/
def computeEnd (event : Event) : Except Exn GTime :=
  let start_date := dictGet event "start_date" .vNone
  let start_time := dictGet event "start_time" .vNone
  let end_date := dictGet event "end_date" start_date
  let end_time := dictGet event "end_time" .vNone
  if truthy end_time then
    .ok (.dateTime (pyStrOf end_date ++ "T" ++ pyStrOf end_time ++ ":00") "UTC")
  else if truthy start_time then
    match pyFromisoformat (pyStrOf start_date ++ "T" ++ pyStrOf start_time ++ ":00") with
    | none => .error .valueError
    | some dt =>
      match addOneHour dt with
      | none => .error .overflowError
      | some dt2 => .ok (.dateTime (isoformat dt2) "UTC")
  else .ok (.date end_date)

/-- The description produced by `format_event_for_gcal`: the raw
`description` value (default `''`), with `f"\n\nSource: \x7burl\x7d"` appended
when `url` is truthy; appending to a non-string raises `TypeError`. -/
def computeDesc (event : Event) : Except Exn Value :=
  let desc0 := dictGet event "description" (.vStr "")
  if truthy (dictGet event "url" .vNone) then
    match desc0 with
    | .vStr ds => .ok (.vStr (ds ++ "\n\nSource: " ++ pyStrOf (dictGet event "url" .vNone)))
    | _ => .error .typeError
  else .ok desc0

/-- The `location` field: the raw value when truthy, else absent. -/
def computeLoc (event : Event) : Option Value :=
  if truthy (dictGet event "location" .vNone) then
    some (dictGet event "location" .vNone)
  else none

/-- `MCPCalendarManager.format_event_for_gcal`: assembles the
Google-Calendar dictionary; the end computation runs before the
description/url concatenation, matching the source's statement order. -/
def format_event_for_gcal (event : Event) : Except Exn GCalEvent := do
  let gend ← computeEnd event
  let gdesc ← computeDesc event
  pure { summary := dictGet event "title" (.vStr "Untitled Event"),
         description := gdesc,
         start := computeStart event,
         end_ := gend,
         location := computeLoc event }

/-- `MCPCalendarManager._simulate_mcp_call`: the stubbed sink, which
always reports success. -/
def simulate_mcp_call : GCalEvent → Except Exn Bool :=
  fun _ => .ok true

/-- The body of `add_event_via_mcp`'s `try` block: validate, return
`False` on invalid, else format and call the sink.  The sink
(`self._simulate_mcp_call` in the source) is a parameter so that the
opaque-boundary claims can quantify over its behaviour. -/
def addEventBody (mcp : GCalEvent → Except Exn Bool) (event : Event) :
    Except Exn Bool := do
  let valid ← validate_event_data event
  if ¬ valid then pure false
  else do
    let g ← format_event_for_gcal event
    mcp g

/-- `MCPCalendarManager.add_event_via_mcp`: the `try` body with a
blanket `except Exception: return False`. -/
def add_event_via_mcp (mcp : GCalEvent → Except Exn Bool) (event : Event) :
    Except Exn Bool :=
  match addEventBody mcp event with
  | .ok b => .ok b
  | .error _ => .ok false

/-- `MCPCalendarManager.batch_add_events` result /
`EventScrapingAgent.process_events` result. -/
structure Results where
  successful : Nat
  failed : Nat
deriving DecidableEq, Repr

/-- `MCPCalendarManager.batch_add_events`: count each event's
`add_event_via_mcp` outcome. -/
def batch_add_events (mcp : GCalEvent → Except Exn Bool) :
    List Event → Results → Except Exn Results
  | [], acc => .ok acc
  | e :: rest, acc =>
    match add_event_via_mcp mcp e with
    | .error ex => .error ex
    | .ok b =>
      batch_add_events mcp rest
        (if b then { acc with successful := acc.successful + 1 }
         else { acc with failed := acc.failed + 1 })

/-- `EventScrapingAgent.add_event_to_calendar`: forwards to
`add_event_via_mcp`, with its own blanket `except Exception: return False`. -/
def add_event_to_calendar (mcp : GCalEvent → Except Exn Bool) (event : Event) :
    Except Exn Bool :=
  match add_event_via_mcp mcp event with
  | .ok b => .ok b
  | .error _ => .ok false

/-- The loop of `EventScrapingAgent.process_events`, with the running
tally made explicit. -/
def processLoop (mcp : GCalEvent → Except Exn Bool) :
    List Event → Results → Except Exn Results
  | [], acc => .ok acc
  | e :: rest, acc =>
    match add_event_to_calendar mcp e with
    | .error ex => .error ex
    | .ok b =>
      processLoop mcp rest
        (if b then { acc with successful := acc.successful + 1 }
         else { acc with failed := acc.failed + 1 })

/-- `EventScrapingAgent.process_events`: starts the tally at zero. -/
def process_events (mcp : GCalEvent → Except Exn Bool) (events : List Event) :
    Except Exn Results :=
  processLoop mcp events ⟨0, 0⟩

/-- Whether a record comes out of `add_event_to_calendar` as a success. -/
def sinkOk (mcp : GCalEvent → Except Exn Bool) (e : Event) : Bool :=
  match add_event_to_calendar mcp e with
  | .ok b => b
  | .error _ => false

/-- Python dict insertion: overwrite an existing key, else append. -/
def dictInsert (m : List (String × String)) (k v : String) :
    List (String × String) :=
  if m.any (fun p => p.1 = k) then
    m.map (fun p => if p.1 = k then (k, v) else p)
  else m ++ [(k, v)]

/-- `EventScrapingAgent.scrape_multiple_pages`: builds the URL→text dict
by calling the fetcher on each URL in order. -/
def scrape_multiple_pages (fetch : String → String) (urls : List String) :
    List (String × String) :=
  urls.foldl (fun m u => dictInsert m u (fetch u)) []

/-- The summary dictionary returned by `EventScrapingAgent.run_agent`. -/
structure RunSummary where
  urls_processed : Nat
  events_found : Nat
  events_added_successfully : Nat
  events_failed : Nat
  extracted_events : List Event
deriving DecidableEq, Repr

/-- `EventScrapingAgent.run_agent`: scrape every URL, extract candidate
events (the Gemini-backed extractor is a parameter: an external
collaborator), process them, and assemble the summary.  -/
def run_agent (fetch : String → String)
    (extract : List (String × String) → List Event)
    (mcp : GCalEvent → Except Exn Bool) (urls : List String) :
    Except Exn RunSummary := do
  let scraped := scrape_multiple_pages fetch urls
  let events := extract scraped
  let results ← process_events mcp events
  pure { urls_processed := urls.length,
         events_found := events.length,
         events_added_successfully := results.successful,
         events_failed := results.failed,
         extracted_events := events }

/-- Modelled from the spec: a string in ISO-8601 calendar-date form
`YYYY-MM-DD` (the form the spec says `validate` requires of
`start_date`); used only to compare the spec's wording with the
source's `fromisoformat`-based check. -/
def specCalendarDate (s : String) : Bool :=
  (parseDateList s.data).isSome

/-- The `start_date` values on which `validate_event_data`'s
`except ValueError` suffices: a string, or a falsy value (which the
required-field check rejects before parsing). -/
def startDateSafeB (event : Event) : Bool :=
  match List.lookup "start_date" event with
  | some (.vStr _) => true
  | some v => ! truthy v
  | none => true

/-! ## Helper lemmas -/

/-- Inversion of a successful `Except` bind. -/
theorem exceptBind_ok {α β : Type} {x : Except Exn α} {f : α → Except Exn β}
    {b : β} : (x >>= f) = .ok b ↔ ∃ a, x = .ok a ∧ f a = .ok b := by
  cases x <;> simp [Bind.bind, Except.bind]

set_option maxHeartbeats 1000000 in
/-- Stepping `daysBeforeYear` over one year adds the length of that year. -/
theorem daysBeforeYear_succ (y : Nat) (hy : 1 ≤ y) :
    daysBeforeYear (y + 1) =
      daysBeforeYear y + (if isLeapYear y then 366 else 365) := by
  obtain ⟨k, rfl⟩ : ∃ k, y = k + 1 := ⟨y - 1, by omega⟩
  unfold daysBeforeYear isLeapYear
  simp only [Nat.add_sub_cancel, Bool.or_eq_true, Bool.and_eq_true, beq_iff_eq,
    bne_iff_ne, ne_eq]
  split_ifs <;> omega

/-- Stepping `daysBeforeMonth` over one month adds that month's length. -/
theorem daysBeforeMonth_succ (y m : Nat) (h1 : 1 ≤ m) (h2 : m ≤ 11) :
    daysBeforeMonth y (m + 1) = daysBeforeMonth y m + daysInMonth y m := by
  interval_cases m <;> cases hl : isLeapYear y <;>
    simp [daysBeforeMonth, daysInMonth, hl]

/-- `dt + timedelta(hours=1)` advances the denoted instant by exactly
3600 seconds whenever it does not overflow. -/
theorem addOneHour_toSeconds (dt dt2 : PyDateTime) (hv : validDT dt)
    (h : addOneHour dt = some dt2) : toSeconds dt2 = toSeconds dt + 3600 := by
  obtain ⟨hy, hm1, hm2, hd1, hd2, hh, hmi, hs⟩ := hv
  unfold addOneHour at h
  split_ifs at h with h1 h2 h3 h4
  · cases h
    simp only [toSeconds]
    omega
  · cases h
    simp only [toSeconds, toOrdinal]
    omega
  · cases h
    have hstep := daysBeforeMonth_succ dt.year dt.month hm1 (by omega)
    simp only [toSeconds, toOrdinal] at *
    omega
  · cases h
    have h12 : dt.month = 12 := by omega
    have hstep := daysBeforeYear_succ dt.year hy
    have h31 : daysInMonth dt.year 12 = 31 := rfl
    have h334 : daysBeforeMonth dt.year 12 =
        334 + (if isLeapYear dt.year then 1 else 0) := by
      cases hl : isLeapYear dt.year <;> simp [daysBeforeMonth, hl]
    have h0 : daysBeforeMonth dt.year 1 = 0 := by
      cases hl : isLeapYear dt.year <;> simp [daysBeforeMonth, hl]
    have h0' : daysBeforeMonth (dt.year + 1) 1 = 0 := by
      cases hl : isLeapYear (dt.year + 1) <;> simp [daysBeforeMonth, hl]
    rw [h12] at hd2 h2
    rw [h31] at hd2 h2
    simp only [toSeconds, toOrdinal, h12, h0']
    cases hl : isLeapYear dt.year <;> simp [hl] at hstep h334 <;> omega

/-- A parsed date satisfies the calendar bounds checked by the parser. -/
theorem parseDateList_valid {cs : List Char} {y m d : Nat}
    (h : parseDateList cs = some (y, m, d)) :
    1 ≤ y ∧ 1 ≤ m ∧ m ≤ 12 ∧ 1 ≤ d ∧ d ≤ daysInMonth y m := by
  unfold parseDateList at h
  split at h
  · split_ifs at h with hsep
    split at h
    · split_ifs at h with hrange
      simp only [Option.some.injEq, Prod.mk.injEq] at h
      obtain ⟨rfl, rfl, rfl⟩ := h
      exact hrange
    · exact absurd h (by simp)
  · exact absurd h (by simp)

/-- A parsed time satisfies the bounds checked by the parser. -/
theorem parseTimeList_valid {cs : List Char} {hh mi ss : Nat}
    (h : parseTimeList cs = some (hh, mi, ss)) :
    hh ≤ 23 ∧ mi ≤ 59 ∧ ss ≤ 59 := by
  unfold parseTimeList at h
  split at h
  · split at h
    · split_ifs at h with hrange
      simp only [Option.some.injEq, Prod.mk.injEq] at h
      obtain ⟨rfl, rfl, rfl⟩ := h
      omega
    · exact absurd h (by simp)
  · split_ifs at h with hsep
    split at h
    · split_ifs at h with hrange
      simp only [Option.some.injEq, Prod.mk.injEq] at h
      obtain ⟨rfl, rfl, rfl⟩ := h
      omega
    · exact absurd h (by simp)
  · split_ifs at h with hsep
    split at h
    · split_ifs at h with hrange
      simp only [Option.some.injEq, Prod.mk.injEq] at h
      obtain ⟨rfl, rfl, rfl⟩ := h
      omega
    · exact absurd h (by simp)
  · exact absurd h (by simp)

/-- Anything `fromisoformat` accepts satisfies the datetime invariant. -/
theorem pyFromisoformat_valid {s : String} {dt : PyDateTime}
    (h : pyFromisoformat s = some dt) : validDT dt := by
  unfold pyFromisoformat at h
  split at h
  · next y m d hdate =>
    obtain ⟨rfl⟩ : dt = ⟨y, m, d, 0, 0, 0⟩ := by
      simpa using h.symm
    obtain ⟨h1, h2, h3, h4, h5⟩ := parseDateList_valid hdate
    exact ⟨h1, h2, h3, h4, h5,
      show (0 : Nat) ≤ 23 by omega,
      show (0 : Nat) ≤ 59 by omega,
      show (0 : Nat) ≤ 59 by omega⟩
  · split at h
    · next y m d hh mi ss hdate htime =>
      obtain ⟨rfl⟩ : dt = ⟨y, m, d, hh, mi, ss⟩ := by
        simpa using h.symm
      obtain ⟨h1, h2, h3, h4, h5⟩ := parseDateList_valid hdate
      obtain ⟨h6, h7, h8⟩ := parseTimeList_valid htime
      exact ⟨h1, h2, h3, h4, h5, h6, h7, h8⟩
    · exact absurd h (by simp)

/-- `add_event_to_calendar` always returns `sinkOk` as a plain boolean:
its blanket handler (and the one inside `add_event_via_mcp`) leaves no
escaping exception. -/
theorem add_event_to_calendar_eq (mcp : GCalEvent → Except Exn Bool)
    (e : Event) : add_event_to_calendar mcp e = .ok (sinkOk mcp e) := by
  unfold sinkOk add_event_to_calendar add_event_via_mcp
  cases addEventBody mcp e <;> rfl

/-- Closed form of the `process_events` loop: starting from any tally it
adds the success and failure counts of the whole list. -/
theorem processLoop_eq (mcp : GCalEvent → Except Exn Bool)
    (events : List Event) (a b : Nat) :
    processLoop mcp events ⟨a, b⟩ =
      .ok ⟨a + events.countP (fun e => sinkOk mcp e),
           b + events.countP (fun e => ! sinkOk mcp e)⟩ := by
  induction events generalizing a b with
  | nil => simp [processLoop]
  | cons e rest ih =>
    rw [processLoop, add_event_to_calendar_eq]
    cases hb : sinkOk mcp e <;>
      simp [hb, ih, List.countP_cons] <;> omega

/-! ## Claim theorems -/

/-- C3: for every sequence of N candidate records and every sink, the
batch processor attempts every record and returns a tally with
`successful` = the number of records whose submission reports success
(N−K) and `failed` = the number K of records that fail validation,
normalization, or the sink call, with `successful + failed = N`. -/
theorem c3_batch_tally (mcp : GCalEvent → Except Exn Bool)
    (events : List Event) :
    process_events mcp events =
      .ok ⟨events.countP (fun e => sinkOk mcp e),
           events.countP (fun e => ! sinkOk mcp e)⟩ ∧
    events.countP (fun e => sinkOk mcp e)
      + events.countP (fun e => ! sinkOk mcp e) = events.length := by
  constructor
  · simpa using processLoop_eq mcp events 0 0
  · induction events with
    | nil => rfl
    | cons e rest ih =>
      simp only [List.countP_cons, List.length_cons]
      cases hb : sinkOk mcp e <;> simp [hb] <;> omega

/-- C9: for every URL list, extractor and sink, `run_agent` returns a
summary with `urls_processed` = the number of input URLs,
`events_found` = the number of extracted candidates,
`extracted_events` = exactly the extractor's output sequence, and the
added/failed fields equal to the batch tally over that sequence. -/
theorem c9_run_summary (fetch : String → String)
    (extract : List (String × String) → List Event)
    (mcp : GCalEvent → Except Exn Bool) (urls : List String) :
    run_agent fetch extract mcp urls =
      .ok { urls_processed := urls.length,
            events_found := (extract (scrape_multiple_pages fetch urls)).length,
            events_added_successfully :=
              (extract (scrape_multiple_pages fetch urls)).countP
                (fun e => sinkOk mcp e),
            events_failed :=
              (extract (scrape_multiple_pages fetch urls)).countP
                (fun e => ! sinkOk mcp e),
            extracted_events := extract (scrape_multiple_pages fetch urls) } := by
  simp [run_agent, process_events, processLoop_eq]

/-- C10: for every input record, `add_event_via_mcp` returns a plain
boolean and never propagates an exception: whenever its body (the
validation, formatting or sink call) raises, the blanket handler
converts the outcome into an `ok false` return. -/
theorem c10_boundary (mcp : GCalEvent → Except Exn Bool) (event : Event) :
    (∃ bl : Bool, add_event_via_mcp mcp event = .ok bl) ∧
    (∀ ex : Exn, addEventBody mcp event = .error ex →
      add_event_via_mcp mcp event = .ok false) := by
  constructor
  · cases h : addEventBody mcp event with
    | ok b => exact ⟨b, by simp [add_event_via_mcp, h]⟩
    | error ex => exact ⟨false, by simp [add_event_via_mcp, h]⟩
  · intro ex h
    simp [add_event_via_mcp, h]

/-- C10 witness: a record whose non-string `start_date` makes the
validator raise `TypeError`; the boundary converts it to `ok false`. -/
theorem c10_boundary_witness :
    add_event_via_mcp simulate_mcp_call
      [("title", Value.vStr "X"), ("start_date", Value.vInt 5)] = .ok false :=
  (c10_boundary simulate_mcp_call
    [("title", Value.vStr "X"), ("start_date", Value.vInt 5)]).2 .typeError rfl

/-- C7: for every sink behaviour, the per-record submission boundary
never lets a sink exception escape; a sink exception or a sink `false`
on a record that validated and formatted turns into an `ok false`
outcome, and such a record is counted as failed without aborting the
rest of the batch. -/
theorem c7_sink_failure (mcp : GCalEvent → Except Exn Bool) :
    (∀ e : Event, ∃ bl : Bool, add_event_to_calendar mcp e = .ok bl) ∧
    (∀ (e : Event) (g : GCalEvent), validate_event_data e = .ok true →
      format_event_for_gcal e = .ok g →
      ((∃ ex, mcp g = .error ex) ∨ mcp g = .ok false) →
      add_event_to_calendar mcp e = .ok false) ∧
    (∀ (e : Event) (rest : List Event) (r : Results),
      add_event_to_calendar mcp e = .ok false →
      process_events mcp rest = .ok r →
      process_events mcp (e :: rest) = .ok ⟨r.successful, r.failed + 1⟩) := by
  refine ⟨fun e => ⟨sinkOk mcp e, add_event_to_calendar_eq mcp e⟩, ?_, ?_⟩
  · intro e g hval hfmt hfail
    have hbody : addEventBody mcp e = mcp g := by
      unfold addEventBody
      rw [hval]
      simp [Bind.bind, Except.bind, hfmt]
    rcases hfail with ⟨ex, hex⟩ | hfalse
    · simp [add_event_to_calendar, add_event_via_mcp, hbody, hex]
    · simp [add_event_to_calendar, add_event_via_mcp, hbody, hfalse]
  · intro e rest r h1 h2
    have h3 := processLoop_eq mcp rest 0 0
    rw [process_events] at h2
    rw [h2] at h3
    have hr : r = ⟨List.countP (fun e => sinkOk mcp e) rest,
                   List.countP (fun e => ! sinkOk mcp e) rest⟩ := by
      simp only [Except.ok.injEq] at h3
      simpa using h3
    subst hr
    simp [process_events, processLoop, h1, processLoop_eq mcp rest 0 1]
    omega

/-- C7 witness: a sink that raises on a valid, well-formed record; the
record comes out as a caught `ok false`. -/
theorem c7_sink_failure_witness :
    add_event_to_calendar (fun _ => .error .valueError)
      [("title", Value.vStr "X"), ("start_date", Value.vStr "2025-06-01")]
      = .ok false :=
  (c7_sink_failure (fun _ => .error .valueError)).2.1
    [("title", Value.vStr "X"), ("start_date", Value.vStr "2025-06-01")]
    { summary := Value.vStr "X", description := Value.vStr "",
      start := .date (Value.vStr "2025-06-01"),
      end_ := .date (Value.vStr "2025-06-01"), location := none }
    rfl rfl (Or.inl ⟨.valueError, rfl⟩)

/-- C4 counterexample: a full ISO date-time string is not in
`YYYY-MM-DD` calendar-date form, yet `validate_event_data` accepts the
record, because `datetime.fromisoformat` parses date-times too. -/
theorem c4_validate_counterexample :
    validate_event_data
      [("title", Value.vStr "X"),
       ("start_date", Value.vStr "2025-06-01T14:30:00")] = .ok true ∧
    specCalendarDate "2025-06-01T14:30:00" = false := by
  exact ⟨rfl, rfl⟩

/-- C4 (amended): `validate_event_data` returns true exactly when
`title` is truthy and `start_date` is a non-empty string accepted by
`datetime.fromisoformat` — a superset of the `YYYY-MM-DD` form; in
particular every string `fromisoformat` cannot parse yields false. -/
theorem c4_validate_iff (event : Event) :
    validate_event_data event = .ok true ↔
      (truthyOpt (List.lookup "title" event) = true ∧
       ∃ s : String, List.lookup "start_date" event = some (.vStr s) ∧
         s ≠ "" ∧ (pyFromisoformat s).isSome = true) := by
  unfold validate_event_data
  split_ifs with h1 h2
  · cases heq : List.lookup "start_date" event with
    | none =>
      rw [heq] at h2
      simp [truthyOpt] at h2
    | some v =>
      rw [heq] at h2
      cases v with
      | vStr s =>
        simp only [Except.ok.injEq]
        constructor
        · intro hp
          refine ⟨h1, s, rfl, ?_, hp⟩
          simp only [truthyOpt, truthy] at h2
          intro hemp
          rw [hemp] at h2
          exact absurd h2 (by decide)
        · rintro ⟨-, s2, hs2, -, hp2⟩
          simp only [Option.some.injEq, Value.vStr.injEq] at hs2
          rw [← hs2] at hp2
          exact hp2
      | vInt n =>
        constructor
        · intro hh
          simp at hh
        · rintro ⟨-, s, hs, -, -⟩
          simp at hs
      | vNone =>
        constructor
        · intro hh
          simp at hh
        · rintro ⟨-, s, hs, -, -⟩
          simp at hs
  · constructor
    · intro hh
      simp at hh
    · rintro ⟨-, s, hs, hne, -⟩
      exfalso
      apply h2
      rw [hs]
      show (!s.isEmpty) = true
      cases hemp : s.isEmpty
      · rfl
      · exact absurd ((String.isEmpty_iff s).mp hemp) hne
  · constructor
    · intro hh
      simp at hh
    · rintro ⟨ht, -⟩
      exact absurd ht h1

/-- C4 witness: the amended characterization applied to a record with a
plain calendar date. -/
theorem c4_validate_iff_witness :
    validate_event_data
      [("title", Value.vStr "X"),
       ("start_date", Value.vStr "2025-06-01")] = .ok true :=
  (c4_validate_iff
    [("title", Value.vStr "X"), ("start_date", Value.vStr "2025-06-01")]).mpr
    ⟨rfl, "2025-06-01", rfl, by decide, rfl⟩

/-- C6 counterexample: a truthy non-string `start_date` passes the
required-field check, and `fromisoformat` then raises `TypeError`,
which the validator's `except ValueError` does not catch: the
exception propagates out of `validate_event_data`. -/
theorem c6_validate_counterexample :
    validate_event_data
      [("title", Value.vStr "X"), ("start_date", Value.vInt 5)]
      = .error .typeError := rfl

/-- C6 (amended): for every record whose `start_date` is a string (or a
falsy value, rejected before parsing), the validator returns a boolean
and propagates nothing: parse failures on strings are caught and
yield `false`.  A truthy non-string `start_date` instead raises an
uncaught `TypeError` (caught only at the `add_event_via_mcp` boundary). -/
theorem c6_validate_no_raise (event : Event)
    (h : startDateSafeB event = true) :
    ∃ bl : Bool, validate_event_data event = .ok bl := by
  unfold validate_event_data
  split_ifs with h1 h2
  · unfold startDateSafeB at h
    cases heq : List.lookup "start_date" event with
    | none => exact ⟨false, rfl⟩
    | some v =>
      rw [heq] at h h2
      cases v with
      | vStr s => exact ⟨_, rfl⟩
      | vInt n =>
        exfalso
        simp only [truthy, Bool.not_eq_eq_eq_not, Bool.not_true] at h
        simp [truthyOpt, truthy, h] at h2
      | vNone =>
        exfalso
        simp [truthyOpt, truthy] at h2
  · exact ⟨false, rfl⟩
  · exact ⟨false, rfl⟩

/-- C6 witness: an unparseable string `start_date` yields a caught
`ValueError` and a plain `false` result. -/
theorem c6_validate_no_raise_witness :
    ∃ bl : Bool,
      validate_event_data
        [("title", Value.vStr "X"), ("start_date", Value.vStr "not-a-date")]
        = .ok bl :=
  c6_validate_no_raise
    [("title", Value.vStr "X"), ("start_date", Value.vStr "not-a-date")] rfl

/-- `event.get(k)` truthiness agrees with lookup truthiness. -/
theorem truthy_dictGet (e : Event) (k : String) :
    truthy (dictGet e k .vNone) = truthyOpt (List.lookup k e) := by
  unfold dictGet truthyOpt
  cases List.lookup k e <;> rfl

/-- A non-empty string is truthy. -/
theorem truthy_vStr (u : String) (h : u ≠ "") : truthy (.vStr u) = true := by
  show (!u.isEmpty) = true
  cases hemp : u.isEmpty
  · rfl
  · exact absurd ((String.isEmpty_iff u).mp hemp) h

/-- In a well-typed record every stored value is a string. -/
theorem lookup_wellTyped {e : Event} {k : String} {v : Value}
    (hw : wellTypedB e = true) (h : List.lookup k e = some v) :
    ∃ s, v = .vStr s := by
  induction e with
  | nil => simp [List.lookup] at h
  | cons p rest ih =>
    obtain ⟨k2, v2⟩ := p
    simp only [wellTypedB, List.all_cons, Bool.and_eq_true] at hw
    rw [List.lookup] at h
    cases hbk : k == k2 with
    | true =>
      rw [hbk] at h
      simp only [Option.some.injEq] at h
      rw [← h]
      cases v2 with
      | vStr s => exact ⟨s, rfl⟩
      | vInt n => exact absurd hw.1 (by simp)
      | vNone => exact absurd hw.1 (by simp)
    | false =>
      rw [hbk] at h
      exact ih hw.2 h

/-- On a well-typed record the description/url combination succeeds and
yields a string. -/
theorem computeDesc_wellTyped {e : Event} (hw : wellTypedB e = true) :
    ∃ ds : String, computeDesc e = .ok (.vStr ds) := by
  have hdesc : ∃ ds0, dictGet e "description" (.vStr "") = .vStr ds0 := by
    unfold dictGet
    cases hd : List.lookup "description" e with
    | none => exact ⟨"", rfl⟩
    | some v =>
      obtain ⟨s, rfl⟩ := lookup_wellTyped hw hd
      exact ⟨s, rfl⟩
  obtain ⟨ds0, hds0⟩ := hdesc
  unfold computeDesc
  rw [hds0]
  split_ifs with hurl
  · exact ⟨_, rfl⟩
  · exact ⟨ds0, rfl⟩

/-- Inversion of a successful `format_event_for_gcal` into its end,
description and pure parts. -/
theorem format_ok_iff {e : Event} {g : GCalEvent} :
    format_event_for_gcal e = .ok g ↔
      ∃ ge gd, computeEnd e = .ok ge ∧ computeDesc e = .ok gd ∧
        g = { summary := dictGet e "title" (.vStr "Untitled Event"),
              description := gd, start := computeStart e, end_ := ge,
              location := computeLoc e } := by
  unfold format_event_for_gcal
  constructor
  · intro h
    obtain ⟨ge, hge, h2⟩ := exceptBind_ok.mp h
    obtain ⟨gd, hgd, h3⟩ := exceptBind_ok.mp h2
    refine ⟨ge, gd, hge, hgd, ?_⟩
    simp only [pure, Except.pure, Except.ok.injEq] at h3
    exact h3.symm
  · rintro ⟨ge, gd, hge, hgd, rfl⟩
    rw [hge]
    simp [Bind.bind, Except.bind, hgd, pure, Except.pure]

/-- C1 counterexample: a record with no `start_time` but a truthy
`end_time` validates, yet the formatted event pairs a date-only start
with a timed end instant — not an all-day schedule. -/
theorem c1_allday_counterexample :
    validate_event_data
      [("title", Value.vStr "Festival"), ("start_date", Value.vStr "2025-07-04"),
       ("end_time", Value.vStr "15:00")] = .ok true ∧
    ∃ g : GCalEvent,
      format_event_for_gcal
        [("title", Value.vStr "Festival"), ("start_date", Value.vStr "2025-07-04"),
         ("end_time", Value.vStr "15:00")] = .ok g ∧
      g.start = .date (Value.vStr "2025-07-04") ∧
      g.end_ = .dateTime "2025-07-04T15:00:00" "UTC" := by
  exact ⟨rfl, ⟨_, rfl, rfl, rfl⟩⟩

/-- C1 (amended): for every record in which `start_time` is absent or
falsy AND `end_time` is absent or falsy, a successful formatting yields
date-only start and end fields, the end date defaulting to the start
date when `end_date` is absent; with `end_time` present the source
instead emits a timed end next to the date-only start. -/
theorem c1_allday_amended (event : Event) (g : GCalEvent)
    (hst : truthyOpt (List.lookup "start_time" event) = false)
    (het : truthyOpt (List.lookup "end_time" event) = false)
    (hg : format_event_for_gcal event = .ok g) :
    g.start = .date (dictGet event "start_date" .vNone) ∧
    g.end_ = .date (dictGet event "end_date" (dictGet event "start_date" .vNone)) := by
  obtain ⟨ge, gd, hge, hgd, rfl⟩ := format_ok_iff.mp hg
  have hst' : truthy (dictGet event "start_time" .vNone) = false := by
    rw [truthy_dictGet]
    exact hst
  have het' : truthy (dictGet event "end_time" .vNone) = false := by
    rw [truthy_dictGet]
    exact het
  constructor
  · show computeStart event = _
    simp [computeStart, hst']
  · have hend : computeEnd event =
        .ok (.date (dictGet event "end_date" (dictGet event "start_date" .vNone))) := by
      simp [computeEnd, hst', het']
    rw [hend] at hge
    simp only [Except.ok.injEq] at hge
    show ge = _
    exact hge.symm

/-- C1 witness: the spec's Festival example, with no time fields. -/
theorem c1_allday_amended_witness :
    ∃ g : GCalEvent,
      format_event_for_gcal
        [("title", Value.vStr "Festival"), ("start_date", Value.vStr "2025-07-04"),
         ("end_date", Value.vStr "2025-07-06")] = .ok g ∧
      g.start = GTime.date (Value.vStr "2025-07-04") ∧
      g.end_ = GTime.date (Value.vStr "2025-07-06") := by
  refine ⟨_, rfl, ?_⟩
  exact c1_allday_amended
    [("title", Value.vStr "Festival"), ("start_date", Value.vStr "2025-07-04"),
     ("end_date", Value.vStr "2025-07-06")] _ rfl rfl rfl

/-- C8: with a present non-empty string `url`, the formatted description
is the original description (defaulting to the empty string when
absent) with the literal suffix appended; with `url` absent or falsy
the description value passes through unchanged. -/
theorem c8_description (event : Event) :
    (∀ (ds u : String) (g : GCalEvent),
      List.lookup "url" event = some (.vStr u) → u ≠ "" →
      dictGet event "description" (.vStr "") = .vStr ds →
      format_event_for_gcal event = .ok g →
      g.description = .vStr (ds ++ "\n\nSource: " ++ u)) ∧
    (∀ g : GCalEvent,
      truthy (dictGet event "url" .vNone) = false →
      format_event_for_gcal event = .ok g →
      g.description = dictGet event "description" (.vStr "")) := by
  constructor
  · intro ds u g hu hne hd hg
    obtain ⟨ge, gd, hge, hgd, rfl⟩ := format_ok_iff.mp hg
    have hurl : dictGet event "url" .vNone = .vStr u := by
      unfold dictGet
      rw [hu]
      rfl
    have hdc : computeDesc event = .ok (.vStr (ds ++ "\n\nSource: " ++ u)) := by
      unfold computeDesc
      rw [hd, hurl, truthy_vStr u hne]
      simp [pyStrOf]
    rw [hdc] at hgd
    simp only [Except.ok.injEq] at hgd
    show gd = _
    exact hgd.symm
  · intro g hurl hg
    obtain ⟨ge, gd, hge, hgd, rfl⟩ := format_ok_iff.mp hg
    have hdc : computeDesc event = .ok (dictGet event "description" (.vStr "")) := by
      unfold computeDesc
      rw [hurl]
      simp
    rw [hdc] at hgd
    simp only [Except.ok.injEq] at hgd
    show gd = _
    exact hgd.symm

/-- C8 witness: the spec's example record with a description and url. -/
theorem c8_description_witness :
    ∃ g : GCalEvent,
      format_event_for_gcal
        [("title", Value.vStr "T"), ("start_date", Value.vStr "2025-06-01"),
         ("description", Value.vStr "Great talk"),
         ("url", Value.vStr "https://src.example/e")] = .ok g ∧
      g.description = Value.vStr "Great talk\n\nSource: https://src.example/e" := by
  refine ⟨_, rfl, ?_⟩
  exact (c8_description
    [("title", Value.vStr "T"), ("start_date", Value.vStr "2025-06-01"),
     ("description", Value.vStr "Great talk"),
     ("url", Value.vStr "https://src.example/e")]).1
    "Great talk" "https://src.example/e" _ rfl (by decide) rfl rfl

/-- C5 counterexample: a valid record whose `start_time` and `end_time`
both fail to parse as times at all is formatted by plain string
concatenation, the sink is called, and the record is counted as
successful — normalization does not fail on the malformed times. -/
theorem c5_counterexample :
    parseTimeList (String.data "25:99") = none ∧
    parseTimeList (String.data "26:99") = none ∧
    add_event_via_mcp simulate_mcp_call
      [("title", Value.vStr "X"), ("start_date", Value.vStr "2025-06-01"),
       ("start_time", Value.vStr "25:99"), ("end_time", Value.vStr "26:99")]
      = .ok true ∧
    process_events simulate_mcp_call
      [[("title", Value.vStr "X"), ("start_date", Value.vStr "2025-06-01"),
        ("start_time", Value.vStr "25:99"), ("end_time", Value.vStr "26:99")]]
      = .ok ⟨1, 0⟩ := ⟨rfl, rfl, rfl, rfl⟩

/-- C5 (amended): the only time-format failure is in the default-end
branch: when `start_time` is present, `end_time` absent/falsy, and the
combined `start_date`+`start_time` string does not parse, formatting
raises `ValueError`; the record is converted to a failed count at the
`add_event_via_mcp` boundary without aborting the rest of the batch.
Malformed times elsewhere are concatenated into the payload unchecked. -/
theorem c5_time_error_amended (event : Event) (d t : String)
    (htitle : truthyOpt (List.lookup "title" event) = true)
    (hsd : List.lookup "start_date" event = some (.vStr d))
    (hvd : (pyFromisoformat d).isSome = true)
    (hst : List.lookup "start_time" event = some (.vStr t))
    (hne : t ≠ "")
    (het : truthyOpt (List.lookup "end_time" event) = false)
    (hbad : pyFromisoformat (d ++ "T" ++ t ++ ":00") = none) :
    format_event_for_gcal event = .error .valueError ∧
    (∀ mcp, add_event_via_mcp mcp event = .ok false) ∧
    (∀ (mcp : GCalEvent → Except Exn Bool) (rest : List Event) (r : Results),
      process_events mcp rest = .ok r →
      process_events mcp (event :: rest) = .ok ⟨r.successful, r.failed + 1⟩) := by
  have hsd' : dictGet event "start_date" .vNone = .vStr d := by
    unfold dictGet
    rw [hsd]
    rfl
  have hst2 : dictGet event "start_time" .vNone = .vStr t := by
    unfold dictGet
    rw [hst]
    rfl
  have het' : truthy (dictGet event "end_time" .vNone) = false := by
    rw [truthy_dictGet]
    exact het
  have hend : computeEnd event = .error .valueError := by
    simp [computeEnd, hsd', hst2, het', truthy_vStr t hne, pyStrOf, hbad]
  have hfmt : format_event_for_gcal event = .error .valueError := by
    unfold format_event_for_gcal
    rw [hend]
    rfl
  have hdne : d ≠ "" := by
    intro hh
    rw [hh] at hvd
    exact absurd hvd (by decide)
  have hval : validate_event_data event = .ok true := by
    unfold validate_event_data
    simp [htitle, hsd, hvd]
    exact truthy_vStr d hdne
  have hadd : ∀ mcp, add_event_via_mcp mcp event = .ok false := by
    intro mcp
    have hbody : addEventBody mcp event = .error .valueError := by
      unfold addEventBody
      rw [hval]
      simp [Bind.bind, Except.bind, hfmt]
    simp [add_event_via_mcp, hbody]
  refine ⟨hfmt, hadd, ?_⟩
  intro mcp rest r h2
  have hcal : add_event_to_calendar mcp event = .ok false := by
    simp [add_event_to_calendar, hadd mcp]
  have h3 := processLoop_eq mcp rest 0 0
  rw [process_events] at h2
  rw [h2] at h3
  have hr : r = ⟨List.countP (fun e => sinkOk mcp e) rest,
                 List.countP (fun e => ! sinkOk mcp e) rest⟩ := by
    simp only [Except.ok.injEq] at h3
    simpa using h3
  subst hr
  simp [process_events, processLoop, hcal, processLoop_eq mcp rest 0 1]
  omega

/-- C5 witness: a malformed `start_time` with no `end_time` makes the
record fail locally and count as the batch's one failure. -/
theorem c5_time_error_amended_witness :
    process_events simulate_mcp_call
      [[("title", Value.vStr "X"), ("start_date", Value.vStr "2025-06-01"),
        ("start_time", Value.vStr "2pm")]] = .ok ⟨0, 1⟩ :=
  (c5_time_error_amended
    [("title", Value.vStr "X"), ("start_date", Value.vStr "2025-06-01"),
     ("start_time", Value.vStr "2pm")]
    "2025-06-01" "2pm" rfl rfl rfl rfl (by decide) rfl rfl).2.2
    simulate_mcp_call [] ⟨0, 0⟩ rfl

/-- C2: for every well-typed valid record with a parseable
`start_date`+`start_time` and no `end_time`, formatting succeeds with a
timed UTC start at the combined instant and a timed UTC end at that
instant plus one hour — exactly 3600 seconds later on the time line. -/
theorem c2_default_hour (event : Event) (d t : String) (dt dt2 : PyDateTime)
    (hw : wellTypedB event = true)
    (htitle : truthyOpt (List.lookup "title" event) = true)
    (hsd : List.lookup "start_date" event = some (.vStr d))
    (hvd : (pyFromisoformat d).isSome = true)
    (hst : List.lookup "start_time" event = some (.vStr t))
    (hne : t ≠ "")
    (het : truthyOpt (List.lookup "end_time" event) = false)
    (hparse : pyFromisoformat (d ++ "T" ++ t ++ ":00") = some dt)
    (hadd : addOneHour dt = some dt2) :
    ∃ g : GCalEvent, format_event_for_gcal event = .ok g ∧
      g.start = .dateTime (d ++ "T" ++ t ++ ":00") "UTC" ∧
      g.end_ = .dateTime (isoformat dt2) "UTC" ∧
      toSeconds dt2 = toSeconds dt + 3600 := by
  have hsd' : dictGet event "start_date" .vNone = .vStr d := by
    unfold dictGet
    rw [hsd]
    rfl
  have hst2 : dictGet event "start_time" .vNone = .vStr t := by
    unfold dictGet
    rw [hst]
    rfl
  have het' : truthy (dictGet event "end_time" .vNone) = false := by
    rw [truthy_dictGet]
    exact het
  have hend : computeEnd event = .ok (.dateTime (isoformat dt2) "UTC") := by
    simp [computeEnd, hsd', hst2, het', truthy_vStr t hne, pyStrOf, hparse, hadd]
  obtain ⟨ds, hdesc⟩ := computeDesc_wellTyped hw
  refine ⟨_, format_ok_iff.mpr ⟨_, _, hend, hdesc, rfl⟩, ?_, rfl, ?_⟩
  · show computeStart event = _
    simp [computeStart, hsd', hst2, truthy_vStr t hne, pyStrOf]
  · exact addOneHour_toSeconds dt dt2 (pyFromisoformat_valid hparse) hadd

/-- C2 witness: the spec's Tech Talk example, ending one hour later. -/
theorem c2_default_hour_witness :
    ∃ g : GCalEvent,
      format_event_for_gcal
        [("title", Value.vStr "Tech Talk"), ("start_date", Value.vStr "2025-06-01"),
         ("start_time", Value.vStr "14:00")] = .ok g ∧
      g.start = GTime.dateTime ("2025-06-01" ++ "T" ++ "14:00" ++ ":00") "UTC" ∧
      g.end_ = GTime.dateTime (isoformat ⟨2025, 6, 1, 15, 0, 0⟩) "UTC" ∧
      toSeconds ⟨2025, 6, 1, 15, 0, 0⟩ = toSeconds ⟨2025, 6, 1, 14, 0, 0⟩ + 3600 :=
  c2_default_hour
    [("title", Value.vStr "Tech Talk"), ("start_date", Value.vStr "2025-06-01"),
     ("start_time", Value.vStr "14:00")]
    "2025-06-01" "14:00" ⟨2025, 6, 1, 14, 0, 0⟩ ⟨2025, 6, 1, 15, 0, 0⟩
    rfl rfl rfl rfl rfl (by decide) rfl rfl rfl
